import Mathlib

/-!
Shallow embedding of the keyboard-activity monitor (`keyboard_monitor.py`):
the daily aggregate data model, the `on_press` event counter, JSON-file
persistence (`load_data` / `save_data`), the statistics snapshot
(`get_stats`), the lifecycle controller (`stop_monitoring`) and the report
renderer (`generate_report`), together with theorems settling the spec
claims about them.

Python dicts are modelled as insertion-ordered association lists, which is
what CPython guarantees and what the iteration-order-sensitive code
(`max` over `items()`, JSON serialization order) depends on.
-/

set_option autoImplicit false
set_option linter.unusedVariables false

namespace KeyboardMonitor

/-- A `datetime.datetime` value as the monitor consumes it: its position on
the time line in seconds, the hour-of-day component, and its `isoformat()`
string. -/
structure PyDateTime where
  epoch : ℚ
  hour : ℕ
  iso : String

/-- The in-memory daily aggregate `self.data` built by `load_data`:
`hourly_counts` is a string-keyed insertion-ordered dict, `total_count` a
counter, `start_time` an ISO string, `keystrokes` a list of ISO strings. -/
structure LogData where
  hourly_counts : List (String × ℕ)
  total_count : ℕ
  start_time : String
  keystrokes : List String
  deriving DecidableEq

/-- Python dict lookup `d.get(k)` on an insertion-ordered association list:
the value at the first (unique, for real dicts) occurrence of the key. -/
def dictGet : List (String × ℕ) → String → Option ℕ
  | [], _ => none
  | p :: rest, k => if p.1 = k then some p.2 else dictGet rest k

/-- Python dict assignment `d[k] = v`: overwrite the value at an existing
key in place, otherwise append the new key at the end. -/
def dictSet : List (String × ℕ) → String → ℕ → List (String × ℕ)
  | [], k, v => [(k, v)]
  | p :: rest, k, v => if p.1 = k then (k, v) :: rest else p :: dictSet rest k v

/-- `sum(d.values())` over the association-list model. -/
def sumVals (l : List (String × ℕ)) : ℕ := (l.map Prod.snd).sum

/-- The fresh data structure created by `load_data` when no valid file
exists: all 24 hourly keys `"0" .. "23"` at zero, in ascending order. -/
def new_data (nowIso : String) : LogData :=
  { hourly_counts := (List.range 24).map (fun i => (toString i, 0))
    total_count := 0
    start_time := nowIso
    keystrokes := [] }

/-- `KeyboardMonitor.on_press(key)`: increments `total_count`, increments
`hourly_counts[str(hour)]` via `.get(str(hour), 0) + 1`, and appends the
timestamp's ISO string to `keystrokes`.  The `key` argument is taken but
never used (key content is not recorded). -/
def on_press (key : String) (d : LogData) (t : PyDateTime) : LogData :=
  let hourKey := toString t.hour
  { d with
    total_count := d.total_count + 1
    hourly_counts := dictSet d.hourly_counts hourKey ((dictGet d.hourly_counts hourKey).getD 0 + 1)
    keystrokes := d.keystrokes ++ [t.iso] }

/-- A sequence of `on_press` callbacks, each delivering a key and a
timestamp, folded over the aggregate. -/
def run_presses (d : LogData) (events : List (String × PyDateTime)) : LogData :=
  events.foldl (fun acc e => on_press e.1 acc e.2) d

theorem sumVals_nil : sumVals [] = 0 := rfl

theorem sumVals_cons (p : String × ℕ) (l : List (String × ℕ)) :
    sumVals (p :: l) = p.2 + sumVals l := by
  simp [sumVals]

/-- Incrementing one key of the dict (present or not) increments the sum of
the values by exactly one. -/
theorem sumVals_dictSet_incr (l : List (String × ℕ)) (k : String) :
    sumVals (dictSet l k ((dictGet l k).getD 0 + 1)) = sumVals l + 1 := by
  induction l with
  | nil => simp [dictGet, dictSet, sumVals]
  | cons p rest ih =>
    by_cases h : p.1 = k
    · simp [dictGet, dictSet, h, sumVals_cons]
      omega
    · simp [dictGet, dictSet, h, sumVals_cons, ih]
      omega

/-- The C1 invariant on an aggregate. -/
def countInv (d : LogData) : Prop :=
  d.total_count = d.keystrokes.length ∧ d.total_count = sumVals d.hourly_counts

theorem countInv_on_press (key : String) (d : LogData) (t : PyDateTime)
    (h : countInv d) : countInv (on_press key d t) := by
  obtain ⟨h1, h2⟩ := h
  constructor
  · simp [on_press, h1]
  · simp [on_press, sumVals_dictSet_incr, h2]

theorem countInv_run_presses (events : List (String × PyDateTime)) (d : LogData)
    (h : countInv d) : countInv (run_presses d events) := by
  induction events generalizing d with
  | nil => exact h
  | cons e rest ih => exact ih _ (countInv_on_press e.1 d e.2 h)

theorem countInv_new_data (nowIso : String) : countInv (new_data nowIso) := by
  constructor
  · rfl
  · rfl

/-- C1: for every sequence of `record(timestamp)` calls applied to a
freshly-initialized aggregate, after every call `totalCount` equals both the
length of `eventTimestamps` and the sum of the hourly counts.  (Every state
reached "after a call" is `run_presses` of some event sequence, so
quantifying over all sequences covers every intermediate state.) -/
theorem record_preserves_count_invariants
    (events : List (String × PyDateTime)) (nowIso : String) :
    (run_presses (new_data nowIso) events).total_count
        = (run_presses (new_data nowIso) events).keystrokes.length ∧
    (run_presses (new_data nowIso) events).total_count
        = sumVals (run_presses (new_data nowIso) events).hourly_counts :=
  countInv_run_presses events (new_data nowIso) (countInv_new_data nowIso)

/-- C9: the aggregate produced by `on_press` does not depend on which key
was pressed — two events with the same timestamp against the same aggregate
yield identical aggregates, whatever the two keys are (key content is never
recorded). -/
theorem on_press_key_independent (k1 k2 : String) (d : LogData) (t : PyDateTime) :
    on_press k1 d t = on_press k2 d t := rfl

/-! ## Batch checkpoint (C4)

`on_press` ends with: if the updated `total_count` is a multiple of 100,
call `save_data()`, and additionally generate the `<<UpdateStats>>` GUI
event when a GUI root window exists.  `record_run` replays a sequence of
callbacks and counts the `save_data` calls and the generated GUI signals;
`gui` models `self.root and self.root.winfo_exists()`. -/

/-- Replay a list of key events through `on_press`, returning the final
aggregate together with the number of `save_data()` calls and the number of
`<<UpdateStats>>` signals the checkpoints triggered. -/
def record_run (gui : Bool) (d : LogData) : List (String × PyDateTime) → LogData × ℕ × ℕ
  | [] => (d, 0, 0)
  | e :: rest =>
    let d' := on_press e.1 d e.2
    let save1 : ℕ := if d'.total_count % 100 = 0 then 1 else 0
    let sig1 : ℕ := if d'.total_count % 100 = 0 then (if gui then 1 else 0) else 0
    let r := record_run gui d' rest
    (r.1, save1 + r.2.1, sig1 + r.2.2)

/-- Number of multiples of 100 among `start + 1, …, start + n` — the
checkpoints fired while `total_count` climbs from `start` to `start + n`. -/
def countChk (start : ℕ) : ℕ → ℕ
  | 0 => 0
  | n + 1 => (if (start + 1) % 100 = 0 then 1 else 0) + countChk (start + 1) n

theorem on_press_total_count (key : String) (d : LogData) (t : PyDateTime) :
    (on_press key d t).total_count = d.total_count + 1 := rfl

theorem record_run_saves (gui : Bool) (events : List (String × PyDateTime)) :
    ∀ d : LogData, (record_run gui d events).2.1 = countChk d.total_count events.length := by
  induction events with
  | nil => intro d; rfl
  | cons e rest ih =>
    intro d
    simp only [record_run, List.length_cons, countChk, ih, on_press_total_count]

theorem record_run_signals (gui : Bool) (events : List (String × PyDateTime)) :
    ∀ d : LogData,
      (record_run gui d events).2.2 = if gui then (record_run gui d events).2.1 else 0 := by
  induction events with
  | nil => intro d; cases gui <;> rfl
  | cons e rest ih =>
    intro d
    simp only [record_run, ih]
    cases gui <;> simp

/-- C4: from a freshly-initialized aggregate, recording exactly 100 events
fires exactly one `save_data()` call, and exactly one GUI signal when the
GUI root exists; recording exactly 99 events fires zero saves and zero
signals. -/
theorem batch_checkpoint_at_100
    (gui : Bool) (es99 es100 : List (String × PyDateTime)) (nowIso : String)
    (h99 : es99.length = 99) (h100 : es100.length = 100) :
    (record_run gui (new_data nowIso) es100).2.1 = 1 ∧
    (gui = true → (record_run gui (new_data nowIso) es100).2.2 = 1) ∧
    (record_run gui (new_data nowIso) es99).2.1 = 0 ∧
    (record_run gui (new_data nowIso) es99).2.2 = 0 := by
  have htot : (new_data nowIso).total_count = 0 := rfl
  have hs100 : (record_run gui (new_data nowIso) es100).2.1 = 1 := by
    rw [record_run_saves gui es100 (new_data nowIso), h100, htot]
    decide
  have hs99 : (record_run gui (new_data nowIso) es99).2.1 = 0 := by
    rw [record_run_saves gui es99 (new_data nowIso), h99, htot]
    decide
  refine ⟨hs100, ?_, hs99, ?_⟩
  · intro hg
    subst hg
    rw [record_run_signals true es100 (new_data nowIso), if_pos rfl, hs100]
  · rw [record_run_signals gui es99 (new_data nowIso), hs99]
    cases gui <;> simp

/-- Witness for C4 at a concrete 99- and 100-event run with the GUI
attached. -/
theorem batch_checkpoint_at_100_witness :
    (List.replicate 99 (("k", ⟨0, 0, "t"⟩) : String × PyDateTime)).length = 99 ∧
    (List.replicate 100 (("k", ⟨0, 0, "t"⟩) : String × PyDateTime)).length = 100 ∧
    (record_run true (new_data "s")
        (List.replicate 100 (("k", ⟨0, 0, "t"⟩) : String × PyDateTime))).2.1 = 1 ∧
    (record_run true (new_data "s")
        (List.replicate 100 (("k", ⟨0, 0, "t"⟩) : String × PyDateTime))).2.2 = 1 ∧
    (record_run true (new_data "s")
        (List.replicate 99 (("k", ⟨0, 0, "t"⟩) : String × PyDateTime))).2.1 = 0 ∧
    (record_run true (new_data "s")
        (List.replicate 99 (("k", ⟨0, 0, "t"⟩) : String × PyDateTime))).2.2 = 0 := by
  have h := batch_checkpoint_at_100 true
    (List.replicate 99 (("k", ⟨0, 0, "t"⟩) : String × PyDateTime))
    (List.replicate 100 (("k", ⟨0, 0, "t"⟩) : String × PyDateTime))
    "s" (List.length_replicate 99 _) (List.length_replicate 100 _)
  exact ⟨List.length_replicate 99 _, List.length_replicate 100 _,
    h.1, h.2.1 rfl, h.2.2.1, h.2.2.2⟩

/-! ## Lifecycle controller (C7)

`stop_monitoring` acts on the controller state `(is_running, listener)`:
when running it clears the flag, stops and clears the listener, and calls
`save_data()` once; otherwise the body is skipped entirely. -/

/-- The controller state that `stop_monitoring` reads and writes. -/
structure MonState where
  is_running : Bool
  listener : Option Unit
  data : LogData
  deriving DecidableEq

/-- `KeyboardMonitor.stop_monitoring`: returns the new controller state and
the number of `save_data()` calls performed (the only other observable
effect). -/
def stop_monitoring (s : MonState) : MonState × ℕ :=
  if s.is_running then
    ({ s with is_running := false, listener := none }, 1)
  else
    (s, 0)

/-- C7: a second `stop_monitoring` right after a first one leaves the state
unchanged and performs no save (it is a no-op), and calling
`stop_monitoring` while not running is a no-op rather than an error. -/
theorem stop_monitoring_idempotent (s : MonState) :
    stop_monitoring (stop_monitoring s).1 = ((stop_monitoring s).1, 0) ∧
    (s.is_running = false → stop_monitoring s = (s, 0)) := by
  constructor
  · by_cases h : s.is_running = true
    · simp [stop_monitoring, h]
    · simp [stop_monitoring, h]
  · intro h
    simp [stop_monitoring, h]

/-- Witness for C7 at a concrete non-running controller state. -/
theorem stop_monitoring_idempotent_witness :
    stop_monitoring (stop_monitoring ⟨false, some (), new_data "s"⟩).1
        = ((stop_monitoring ⟨false, some (), new_data "s"⟩).1, 0) ∧
    stop_monitoring ⟨false, some (), new_data "s"⟩ = (⟨false, some (), new_data "s"⟩, 0) :=
  ⟨(stop_monitoring_idempotent ⟨false, some (), new_data "s"⟩).1,
   (stop_monitoring_idempotent ⟨false, some (), new_data "s"⟩).2 rfl⟩

/-! ## Persistence (C2, C3, C10)

`save_data` writes `self.data` with `json.dump`; `load_data` parses the file
with `json.load` and returns the parsed object raw when all four required
top-level keys pass Python's `in` test, and a fresh structure otherwise
(also on `JSONDecodeError` and on any other exception, e.g. the `TypeError`
that `k in data` raises on a scalar). -/

/-- A JSON-parseable Python value, as `json.load` can produce it. -/
inductive PyValue where
  | vnull : PyValue
  | vbool : Bool → PyValue
  | vint : ℤ → PyValue
  | vstr : String → PyValue
  | vlist : List PyValue → PyValue
  | vdict : List (String × PyValue) → PyValue

/-- Python substring test `sub in s`. -/
def strContainsSub (s sub : String) : Bool :=
  (List.range (s.length + 1)).any (fun i => sub.data.isPrefixOf (s.data.drop i))

/-- Python's `k in v` for a string `k`: key lookup on a dict, element
equality on a list (a non-string element never equals a string), substring
test on a string, and a `TypeError` on the scalar types. -/
def pyIn (k : String) : PyValue → Except Unit Bool
  | .vdict fields => .ok (fields.any (fun p => p.1 == k))
  | .vlist xs => .ok (xs.any (fun x => match x with | .vstr s => s == k | _ => false))
  | .vstr s => .ok (strContainsSub s k)
  | _ => .error ()

/-- `all(k in data for k in keys)`: short-circuiting conjunction that
propagates the first `TypeError`. -/
def allKeysIn : List String → PyValue → Except Unit Bool
  | [], _ => .ok true
  | k :: rest, v => do
    let b ← pyIn k v
    if b then allKeysIn rest v else pure false

/-- The four required top-level fields checked by `load_data`. -/
def requiredKeys : List String :=
  ["hourly_counts", "total_count", "start_time", "keystrokes"]

/-- What `json.dump` writes for the aggregate: an object with the four
fields in insertion order, hourly counts as a string-keyed object. -/
def encodeData (d : LogData) : PyValue :=
  .vdict [("hourly_counts", .vdict (d.hourly_counts.map (fun p => (p.1, .vint p.2)))),
          ("total_count", .vint d.total_count),
          ("start_time", .vstr d.start_time),
          ("keystrokes", .vlist (d.keystrokes.map .vstr))]

/-- `KeyboardMonitor.save_data`: serialize the aggregate to the log file. -/
def save_data (d : LogData) : PyValue := encodeData d

/-- What `load_data` finds at the log-file path. -/
inductive FileContent where
  | missing : FileContent
  | unparseable : FileContent
  | parsed : PyValue → FileContent

/-- `KeyboardMonitor.load_data`: if the file exists and parses and the four
required keys are all `in` the parsed value, return it raw; in every other
case (missing file, `JSONDecodeError`, failed key check, or any exception
raised by the key check) fall through to the fresh structure.  `fresh` is
the serialized form of `new_data` at the current time. -/
def load_data (fc : FileContent) (fresh : PyValue) : PyValue :=
  match fc with
  | .missing => fresh
  | .unparseable => fresh
  | .parsed v =>
    match allKeysIn requiredKeys v with
    | .ok true => v
    | .ok false => fresh
    | .error _ => fresh

theorem allKeysIn_vdict (ks : List String) (fields : List (String × PyValue)) :
    allKeysIn ks (.vdict fields) = .ok (ks.all (fun k => fields.any (fun p => p.1 == k))) := by
  induction ks with
  | nil => rfl
  | cons k rest ih =>
    by_cases h : fields.any (fun p => p.1 == k) = true
    · simp [allKeysIn, pyIn, h, ih, bind, Except.bind]
    · simp [allKeysIn, pyIn, h, bind, Except.bind, pure, Except.pure]

theorem allKeysIn_encodeData (d : LogData) :
    allKeysIn requiredKeys (encodeData d) = .ok true := by
  simp [encodeData, allKeysIn_vdict, requiredKeys]

theorem vstr_map_injective (a b : List String) (h : a.map PyValue.vstr = b.map PyValue.vstr) :
    a = b := by
  induction a generalizing b with
  | nil => cases b <;> simp_all
  | cons x xs ih =>
    cases b with
    | nil => simp_all
    | cons y ys =>
      simp only [List.map_cons, List.cons.injEq, PyValue.vstr.injEq] at h
      exact by simp [h.1, ih ys h.2]

theorem hourly_map_injective (a b : List (String × ℕ))
    (h : a.map (fun p => (p.1, PyValue.vint p.2)) = b.map (fun p => (p.1, PyValue.vint p.2))) :
    a = b := by
  induction a generalizing b with
  | nil => cases b <;> simp_all
  | cons x xs ih =>
    cases b with
    | nil => simp_all
    | cons y ys =>
      simp only [List.map_cons, List.cons.injEq, Prod.mk.injEq, PyValue.vint.injEq,
        Nat.cast_inj] at h
      obtain ⟨⟨h1, h2⟩, h3⟩ := h
      have hxy : x = y := by cases x; cases y; simp_all
      rw [hxy, ih ys h3]

/-- Serialization is lossless: equal encodings come from equal aggregates. -/
theorem encodeData_injective (a b : LogData) (h : encodeData a = encodeData b) : a = b := by
  simp only [encodeData, PyValue.vdict.injEq, List.cons.injEq, Prod.mk.injEq,
    PyValue.vint.injEq, PyValue.vstr.injEq, PyValue.vlist.injEq, Nat.cast_inj,
    true_and, and_true] at h
  obtain ⟨h1, h2, h3, h4⟩ := h
  cases a; cases b
  simp only [LogData.mk.injEq]
  exact ⟨hourly_map_injective _ _ h1, h2, h3, vstr_map_injective _ _ h4⟩

/-- A valid aggregate per the spec: all 24 hourly keys present (in the
canonical ascending order every reachable aggregate has). -/
def validAgg (d : LogData) : Prop :=
  d.hourly_counts.map Prod.fst = (List.range 24).map toString

/-- C2: for every valid aggregate `A`, loading what `save_data` wrote gives
back exactly the serialized form of `A`, and the serialization determines
`A` field for field — `load(save(A)) == A` without loss. -/
theorem load_save_roundtrip (A B : LogData) (nowIso : String) (hA : validAgg A) :
    load_data (.parsed (save_data A)) (encodeData (new_data nowIso)) = encodeData A ∧
    (encodeData B = encodeData A → B = A) := by
  constructor
  · simp [load_data, save_data, allKeysIn_encodeData]
  · exact encodeData_injective B A

/-- Witness for C2 at the concrete fresh aggregate (a valid aggregate: all
24 hourly keys present at zero). -/
theorem load_save_roundtrip_witness :
    validAgg (new_data "t") ∧
    load_data (.parsed (save_data (new_data "t"))) (encodeData (new_data "u"))
      = encodeData (new_data "t") := by
  have hv : validAgg (new_data "t") := by
    simp [validAgg, new_data]
  exact ⟨hv, (load_save_roundtrip (new_data "t") (new_data "t") "u" hv).1⟩

theorem load_data_not_ok (v : PyValue) (fresh : PyValue)
    (h : allKeysIn requiredKeys v ≠ .ok true) :
    load_data (.parsed v) fresh = fresh := by
  cases hv : allKeysIn requiredKeys v with
  | ok b =>
    cases b with
    | true => exact absurd hv h
    | false => simp [load_data, hv]
  | error e => simp [load_data, hv]

/-- C3: `load_data` degrades to the fresh structure on unparseable data, on
a parsed record missing a required field, and on any parsed value failing
the key check (including scalar values, where `k in data` raises a caught
`TypeError`); it never propagates an exception — its only outcomes are the
fresh structure or the parsed value itself — and the fresh structure has
`total_count = 0`. -/
theorem load_corrupt_recovery (nowIso : String) (v : PyValue)
    (fields : List (String × PyValue)) (fc : FileContent) :
    load_data .unparseable (encodeData (new_data nowIso)) = encodeData (new_data nowIso) ∧
    load_data .missing (encodeData (new_data nowIso)) = encodeData (new_data nowIso) ∧
    ((∃ k ∈ requiredKeys, ∀ p ∈ fields, p.1 ≠ k) →
      load_data (.parsed (.vdict fields)) (encodeData (new_data nowIso))
        = encodeData (new_data nowIso)) ∧
    (allKeysIn requiredKeys v ≠ .ok true →
      load_data (.parsed v) (encodeData (new_data nowIso)) = encodeData (new_data nowIso)) ∧
    (load_data fc (encodeData (new_data nowIso)) = encodeData (new_data nowIso) ∨
      ∃ w, fc = .parsed w ∧ load_data fc (encodeData (new_data nowIso)) = w) ∧
    (new_data nowIso).total_count = 0 := by
  refine ⟨rfl, rfl, ?_, load_data_not_ok v _, ?_, rfl⟩
  · rintro ⟨k, hk, hmiss⟩
    apply load_data_not_ok
    rw [allKeysIn_vdict]
    intro hcontra
    simp only [Except.ok.injEq, List.all_eq_true] at hcontra
    have := hcontra k hk
    simp only [List.any_eq_true, beq_iff_eq] at this
    obtain ⟨p, hp, hpk⟩ := this
    exact hmiss p hp hpk
  · cases fc with
    | missing => exact Or.inl rfl
    | unparseable => exact Or.inl rfl
    | parsed w =>
      cases hv : allKeysIn requiredKeys w with
      | ok b =>
        cases b with
        | true => exact Or.inr ⟨w, rfl, by simp [load_data, hv]⟩
        | false => exact Or.inl (by simp [load_data, hv])
      | error e => exact Or.inl (by simp [load_data, hv])

/-- Witness for C3: an empty JSON object (all four fields missing) and a
bare number (whose key check raises a caught `TypeError`). -/
theorem load_corrupt_recovery_witness :
    (∃ k ∈ requiredKeys, ∀ p ∈ ([] : List (String × PyValue)), p.1 ≠ k) ∧
    allKeysIn requiredKeys (.vint 7) ≠ .ok true ∧
    load_data .unparseable (encodeData (new_data "t")) = encodeData (new_data "t") ∧
    load_data (.parsed (.vdict [])) (encodeData (new_data "t")) = encodeData (new_data "t") ∧
    load_data (.parsed (.vint 7)) (encodeData (new_data "t")) = encodeData (new_data "t") ∧
    (new_data "t").total_count = 0 := by
  have hmiss : ∃ k ∈ requiredKeys, ∀ p ∈ ([] : List (String × PyValue)), p.1 ≠ k :=
    ⟨"hourly_counts", by simp [requiredKeys], by simp⟩
  have hbad : allKeysIn requiredKeys (.vint 7) ≠ .ok true := by
    simp [allKeysIn, requiredKeys, pyIn, bind, Except.bind]
  have h := load_corrupt_recovery "t" (.vint 7) [] .unparseable
  exact ⟨hmiss, hbad, h.1, h.2.2.1 hmiss, h.2.2.2.1 hbad, h.2.2.2.2.2⟩

theorem dictGet_none_dictSet (l : List (String × ℕ)) (k : String) (v : ℕ)
    (h : dictGet l k = none) : dictSet l k v = l ++ [(k, v)] := by
  induction l with
  | nil => rfl
  | cons p rest ih =>
    by_cases hp : p.1 = k
    · simp [dictGet, hp] at h
    · simp only [dictGet, hp, if_false, if_neg hp] at h ⊢
      simp [dictSet, hp, ih h]

theorem dictGet_append_of_none (l l2 : List (String × ℕ)) (k : String)
    (h : dictGet l k = none) : dictGet (l ++ l2) k = dictGet l2 k := by
  induction l with
  | nil => rfl
  | cons p rest ih =>
    by_cases hp : p.1 = k
    · simp [dictGet, hp] at h
    · simp only [dictGet, hp, if_neg hp] at h ⊢
      simp [List.cons_append, dictGet, hp, ih h]

/-- C10: `load_data` accepts a parsed object as soon as the four top-level
keys are present — the hourly map's coverage is never inspected — and
`on_press` is total on an aggregate whose hourly dict is missing the
current hour's key: it treats the missing key as count 0 and appends the
key with count 1 instead of failing. -/
theorem load_accepts_partial_hourly (fields : List (String × PyValue)) (nowIso : String)
    (key : String) (d : LogData) (t : PyDateTime)
    (hkeys : ∀ q ∈ requiredKeys, ∃ p ∈ fields, p.1 = q)
    (hmiss : dictGet d.hourly_counts (toString t.hour) = none) :
    load_data (.parsed (.vdict fields)) (encodeData (new_data nowIso)) = .vdict fields ∧
    (on_press key d t).total_count = d.total_count + 1 ∧
    (on_press key d t).hourly_counts = d.hourly_counts ++ [(toString t.hour, 1)] ∧
    dictGet (on_press key d t).hourly_counts (toString t.hour) = some 1 := by
  have hload : load_data (.parsed (.vdict fields)) (encodeData (new_data nowIso))
      = .vdict fields := by
    have : allKeysIn requiredKeys (.vdict fields) = .ok true := by
      rw [allKeysIn_vdict]
      simp only [Except.ok.injEq, List.all_eq_true]
      intro q hq
      obtain ⟨p, hp, hpq⟩ := hkeys q hq
      simp only [List.any_eq_true, beq_iff_eq]
      exact ⟨p, hp, hpq⟩
    simp [load_data, this]
  have hhc : (on_press key d t).hourly_counts
      = d.hourly_counts ++ [(toString t.hour, 1)] := by
    simp only [on_press]
    rw [hmiss]
    exact dictGet_none_dictSet _ _ _ hmiss
  refine ⟨hload, rfl, hhc, ?_⟩
  rw [hhc, dictGet_append_of_none _ _ _ hmiss]
  simp [dictGet]

/-- Witness for C10: a four-field record whose hourly map holds a single
hour, and a press in a different (absent) hour. -/
theorem load_accepts_partial_hourly_witness :
    (∀ q ∈ requiredKeys, ∃ p ∈ [("hourly_counts", PyValue.vdict [("3", PyValue.vint 5)]),
        ("total_count", PyValue.vint 5), ("start_time", PyValue.vstr "s"),
        ("keystrokes", PyValue.vlist [])], p.1 = q) ∧
    dictGet ([("3", 5)] : List (String × ℕ)) (toString (7 : ℕ)) = none ∧
    load_data (.parsed (.vdict [("hourly_counts", PyValue.vdict [("3", PyValue.vint 5)]),
        ("total_count", PyValue.vint 5), ("start_time", PyValue.vstr "s"),
        ("keystrokes", PyValue.vlist [])])) (encodeData (new_data "t"))
      = .vdict [("hourly_counts", PyValue.vdict [("3", PyValue.vint 5)]),
        ("total_count", PyValue.vint 5), ("start_time", PyValue.vstr "s"),
        ("keystrokes", PyValue.vlist [])] ∧
    (on_press "k" ⟨[("3", 5)], 5, "s", []⟩ ⟨0, 7, "x"⟩).total_count = 6 ∧
    dictGet (on_press "k" ⟨[("3", 5)], 5, "s", []⟩ ⟨0, 7, "x"⟩).hourly_counts
        (toString (7 : ℕ)) = some 1 := by
  have hkeys : ∀ q ∈ requiredKeys, ∃ p ∈ [("hourly_counts", PyValue.vdict [("3", PyValue.vint 5)]),
      ("total_count", PyValue.vint 5), ("start_time", PyValue.vstr "s"),
      ("keystrokes", PyValue.vlist [])], p.1 = q := by
    intro q hq
    simp only [requiredKeys, List.mem_cons, List.not_mem_nil, or_false] at hq
    rcases hq with h | h | h | h <;> subst h <;> simp
  have hmiss : dictGet (([("3", 5)] : List (String × ℕ)))
      (toString ((⟨0, 7, "x"⟩ : PyDateTime).hour)) = none := by decide
  have h := load_accepts_partial_hourly _ "t" "k" ⟨[("3", 5)], 5, "s", []⟩ ⟨0, 7, "x"⟩
    hkeys hmiss
  exact ⟨hkeys, hmiss, h.1, h.2.1, h.2.2.2⟩

/-! ## Statistics snapshot (C5, C6)

`get_stats` derives the snapshot: hourly counts re-keyed by `int(h)`, the
peak hour via `max(items, key=lambda x: x[1])` (which keeps the first
maximal item in iteration order), the session duration in hours, and the
keystrokes-per-minute rate guarded against non-positive duration. -/

/-- Python `int(c)` digit value. -/
def digitVal (c : Char) : ℕ := c.toNat - Char.toNat (Char.ofNat 48)

def parseNatAux : List Char → ℕ → ℕ
  | [], acc => acc
  | c :: rest, acc => parseNatAux rest (acc * 10 + digitVal c)

/-- Python `int(h)` on the decimal hour-key strings the monitor produces
(`int` raises on non-digit input; this model is only applied to, and only
claimed faithful on, decimal digit strings). -/
def parseNat (s : String) : ℕ := parseNatAux s.data 0

/-- One step of CPython's `max`: the running maximum is replaced only when
the new item's key is strictly greater, so the first maximal item wins. -/
def pyMaxStep (best y : ℕ × ℕ) : ℕ × ℕ := if best.2 < y.2 then y else best

/-- `max(items, key=lambda x: x[1])` with `x` the first item. -/
def pyMaxByCount (x : ℕ × ℕ) (l : List (ℕ × ℕ)) : ℕ × ℕ := l.foldl pyMaxStep x

/-- `{int(h): c for h, c in self.data["hourly_counts"].items()}`. -/
def statsHourly (d : LogData) : List (ℕ × ℕ) :=
  d.hourly_counts.map (fun p => (parseNat p.1, p.2))

/-- `max(hourly_counts.items(), key=lambda x: x[1]) if hourly_counts else (0, 0)`. -/
def statsPeak (hourly : List (ℕ × ℕ)) : ℕ × ℕ :=
  match hourly with
  | [] => (0, 0)
  | x :: rest => pyMaxByCount x rest

/-- `(end_time - start_time).total_seconds() / 3600`, with the stored ISO
start time read back through `datetime.fromisoformat` (modelled by the
ambient `fromiso` interpretation of ISO strings as epoch seconds). -/
def statsDuration (fromiso : String → ℚ) (now : ℚ) (d : LogData) : ℚ :=
  (now - fromiso d.start_time) / 3600

/-- The statistics snapshot returned by `get_stats`. -/
structure Stats where
  total_keystrokes : ℕ
  hourly_counts : List (ℕ × ℕ)
  peak_hour : ℕ × ℕ
  duration_hours : ℚ
  keystrokes_per_minute : ℚ

/-- `KeyboardMonitor.get_stats`, with `now` the current time in epoch
seconds. -/
def get_stats (fromiso : String → ℚ) (now : ℚ) (d : LogData) : Stats :=
  { total_keystrokes := d.total_count
    hourly_counts := statsHourly d
    peak_hour := statsPeak (statsHourly d)
    duration_hours := statsDuration fromiso now d
    keystrokes_per_minute :=
      if 0 < statsDuration fromiso now d then
        (d.total_count : ℚ) / (statsDuration fromiso now d * 60)
      else 0 }

/-- An aggregate with the canonical 24 ascending hourly keys and the given
counts — the shape of every aggregate the monitor itself builds. -/
def mkAgg (counts : ℕ → ℕ) (total : ℕ) (start : String) (ks : List String) : LogData :=
  { hourly_counts := (List.range 24).map (fun h => (toString h, counts h))
    total_count := total
    start_time := start
    keystrokes := ks }

/-- `p` is the hour with the maximal count below `bound`, ties resolved to
the lowest hour index. -/
def peakInv (counts : ℕ → ℕ) (bound : ℕ) (p : ℕ × ℕ) : Prop :=
  p.2 = counts p.1 ∧ p.1 < bound ∧ (∀ h, h < bound → counts h ≤ p.2) ∧
    (∀ h, h < p.1 → counts h < p.2)

theorem parseNat_toString_lt24 : ∀ h, h < 24 → parseNat (toString h) = h := by decide

theorem pyMaxByCount_range' (counts : ℕ → ℕ) :
    ∀ (n k : ℕ) (best : ℕ × ℕ), peakInv counts k best →
      peakInv counts (k + n)
        (pyMaxByCount best ((List.range' k n).map (fun h => (h, counts h)))) := by
  intro n
  induction n with
  | zero => intro k best hb; simpa [pyMaxByCount] using hb
  | succ n ih =>
    intro k best hb
    obtain ⟨hb1, hb2, hb3, hb4⟩ := hb
    rw [List.range'_succ k n 1]
    have hstep : peakInv counts (k + 1) (pyMaxStep best (k, counts k)) := by
      by_cases h : best.2 < counts k
      · refine ⟨by simp [pyMaxStep, h], by simp [pyMaxStep, h], ?_, ?_⟩
        · intro x hx
          simp only [pyMaxStep, if_pos h]
          rcases Nat.lt_succ_iff_lt_or_eq.mp hx with hx' | hx'
          · exact le_of_lt (lt_of_le_of_lt (hb3 x hx') h)
          · exact hx' ▸ le_refl _
        · intro x hx
          simp only [pyMaxStep, if_pos h] at hx ⊢
          exact lt_of_le_of_lt (hb3 x hx) h
      · refine ⟨by simp only [pyMaxStep, if_neg h]; exact hb1,
          by simp only [pyMaxStep, if_neg h]; omega, ?_, ?_⟩
        · intro x hx
          simp only [pyMaxStep, if_neg h]
          rcases Nat.lt_succ_iff_lt_or_eq.mp hx with hx' | hx'
          · exact hb3 x hx'
          · subst hx'; omega
        · intro x hx
          simp only [pyMaxStep, if_neg h] at hx ⊢
          exact hb4 x hx
    have := ih (k + 1) (pyMaxStep best (k, counts k)) hstep
    have harith : k + 1 + n = k + (n + 1) := by omega
    rw [harith] at this
    simpa [pyMaxByCount, List.map_cons, List.foldl_cons] using this

theorem statsHourly_mkAgg (counts : ℕ → ℕ) (total : ℕ) (start : String) (ks : List String) :
    statsHourly (mkAgg counts total start ks) = (List.range 24).map (fun h => (h, counts h)) := by
  simp only [statsHourly, mkAgg, List.map_map]
  refine List.map_congr_left ?_
  intro h hmem
  have : h < 24 := List.mem_range.mp hmem
  simp [Function.comp, parseNat_toString_lt24 h this]

theorem peak_hour_peakInv (counts : ℕ → ℕ) (total : ℕ) (start : String)
    (ks : List String) (fromiso : String → ℚ) (now : ℚ) :
    peakInv counts 24 ((get_stats fromiso now (mkAgg counts total start ks)).peak_hour) := by
  have hproj : (get_stats fromiso now (mkAgg counts total start ks)).peak_hour
      = statsPeak (statsHourly (mkAgg counts total start ks)) := rfl
  have hlist : statsHourly (mkAgg counts total start ks)
      = (0, counts 0) :: (List.range' 1 23).map (fun h => (h, counts h)) := by
    rw [statsHourly_mkAgg, List.range_eq_range']
    rfl
  have hbase : peakInv counts 1 (0, counts 0) := by
    refine ⟨rfl, Nat.one_pos, ?_, ?_⟩
    · intro h hh
      interval_cases h
      exact le_refl _
    · intro h hh
      exact absurd hh (Nat.not_lt_zero h)
  have := pyMaxByCount_range' counts 23 1 (0, counts 0) hbase
  rw [hproj, hlist]
  simpa [statsPeak] using this

/-- C5: on an aggregate with the canonical hourly keys, the snapshot's peak
hour carries the count of its own hour, lies below 24, has the maximum
count over all 24 hours, and every strictly lower hour has a strictly
smaller count (ties resolve to the lowest hour index); in particular
hourly counts `{3: 5, 7: 5, others: 0}` yield peak hour `(3, 5)`. -/
theorem peak_hour_max_lowest_tie (counts : ℕ → ℕ) (total : ℕ) (start : String)
    (ks : List String) (fromiso : String → ℚ) (now : ℚ) :
    ((get_stats fromiso now (mkAgg counts total start ks)).peak_hour.2
        = counts (get_stats fromiso now (mkAgg counts total start ks)).peak_hour.1) ∧
    (get_stats fromiso now (mkAgg counts total start ks)).peak_hour.1 < 24 ∧
    (∀ h, h < 24 →
      counts h ≤ (get_stats fromiso now (mkAgg counts total start ks)).peak_hour.2) ∧
    (∀ h, h < (get_stats fromiso now (mkAgg counts total start ks)).peak_hour.1 →
      counts h < (get_stats fromiso now (mkAgg counts total start ks)).peak_hour.2) ∧
    (get_stats (fun _ => 0) 0
        (mkAgg (fun h => if h = 3 ∨ h = 7 then 5 else 0) 10 "s" [])).peak_hour = (3, 5) := by
  obtain ⟨h1, h2, h3, h4⟩ := peak_hour_peakInv counts total start ks fromiso now
  exact ⟨h1, h2, h3, h4, by decide⟩

/-- C6: the snapshot's duration is `(now − startTime)` in hours; the rate
is `totalCount / (duration · 60)` when the duration is positive and `0`
when the duration is zero (the guard is `duration > 0`); in particular
`totalCount = 120` with a start time exactly one hour before `now` gives
`keystrokes_per_minute = 2`. -/
theorem rate_computation (fromiso : String → ℚ) (now : ℚ) (d : LogData) :
    (get_stats fromiso now d).duration_hours = (now - fromiso d.start_time) / 3600 ∧
    (0 < (now - fromiso d.start_time) / 3600 →
      (get_stats fromiso now d).keystrokes_per_minute
        = (d.total_count : ℚ) / ((now - fromiso d.start_time) / 3600 * 60)) ∧
    ((now - fromiso d.start_time) / 3600 = 0 →
      (get_stats fromiso now d).keystrokes_per_minute = 0) ∧
    (d.total_count = 120 → fromiso d.start_time = now - 3600 →
      (get_stats fromiso now d).keystrokes_per_minute = 2) := by
  have hrate : (get_stats fromiso now d).keystrokes_per_minute
      = if 0 < statsDuration fromiso now d then
          (d.total_count : ℚ) / (statsDuration fromiso now d * 60)
        else 0 := rfl
  refine ⟨rfl, ?_, ?_, ?_⟩
  · intro h
    rw [hrate, if_pos (show 0 < statsDuration fromiso now d from h)]
    rfl
  · intro h
    rw [hrate, if_neg]
    rw [show statsDuration fromiso now d = (now - fromiso d.start_time) / 3600 from rfl, h]
    exact lt_irrefl 0
  · intro htot hstart
    have hdur : statsDuration fromiso now d = 1 := by
      rw [show statsDuration fromiso now d = (now - fromiso d.start_time) / 3600 from rfl,
        hstart]
      norm_num
    rw [hrate, hdur, if_pos one_pos, htot]
    norm_num

/-- Witness for C6: start exactly one hour before `now = 3600` with 120
recorded events gives rate 2. -/
theorem rate_computation_witness :
    (mkAgg (fun _ => 0) 120 "s" []).total_count = 120 ∧
    (fun _ : String => (0 : ℚ)) (mkAgg (fun _ => 0) 120 "s" []).start_time = 3600 - 3600 ∧
    (get_stats (fun _ => (0 : ℚ)) 3600 (mkAgg (fun _ => 0) 120 "s" [])).keystrokes_per_minute
      = 2 := by
  refine ⟨rfl, by norm_num, ?_⟩
  exact (rate_computation (fun _ => (0 : ℚ)) 3600 (mkAgg (fun _ => 0) 120 "s" [])).2.2.2
    rfl (by norm_num)

/-! ## Report rendering (C8)

`generate_report` writes a peak-hour line using
`f"{peak_hour:02d}:00 - {peak_hour+1:02d}:00" if peak_count > 0 else "N/A"`
and then one line per hour 0–23, in ascending order, formatted
`f"{hour:02d}:00 - {hour+1:02d}:00: {count} keystrokes"` with
`count = stats["hourly_counts"].get(hour, 0)`. -/

/-- Python `f"{n:02d}"` on the non-negative values that occur here. -/
def fmt2 (n : ℕ) : String := if n < 10 then "0" ++ toString n else toString n

/-- `.get(k, default)` lookup on the snapshot's integer-keyed hourly dict
(`.getD` supplies the default). -/
def dictGetN : List (ℕ × ℕ) → ℕ → Option ℕ
  | [], _ => none
  | p :: rest, k => if p.1 = k then some p.2 else dictGetN rest k

/-- The `peak_time` string of the report (and of the GUI stats panel). -/
def report_peak_time (stats : Stats) : String :=
  if 0 < stats.peak_hour.2 then
    fmt2 stats.peak_hour.1 ++ ":00 - " ++ fmt2 (stats.peak_hour.1 + 1) ++ ":00"
  else "N/A"

/-- The 24 hourly-breakdown lines written by `generate_report`. -/
def report_hourly_lines (stats : Stats) : List String :=
  (List.range 24).map (fun hour =>
    fmt2 hour ++ ":00 - " ++ fmt2 (hour + 1) ++ ":00: "
      ++ toString ((dictGetN stats.hourly_counts hour).getD 0) ++ " keystrokes")

/-- C8: for an aggregate whose 24 hourly counts are all zero, the report
renders the peak hour as `N/A`, and its hourly breakdown is exactly 24
lines, one per hour in ascending order, each reading
`HH:00 - (HH+1):00: 0 keystrokes`. -/
theorem report_all_zero_hours (total : ℕ) (start : String) (ks : List String)
    (fromiso : String → ℚ) (now : ℚ) :
    report_peak_time (get_stats fromiso now (mkAgg (fun _ => 0) total start ks)) = "N/A" ∧
    report_hourly_lines (get_stats fromiso now (mkAgg (fun _ => 0) total start ks))
      = (List.range 24).map
          (fun h => fmt2 h ++ ":00 - " ++ fmt2 (h + 1) ++ ":00: 0 keystrokes") ∧
    (report_hourly_lines (get_stats fromiso now (mkAgg (fun _ => 0) total start ks))).length
      = 24 := by
  have hst : (get_stats fromiso now (mkAgg (fun _ => 0) total start ks)).hourly_counts
      = (List.range 24).map (fun h => (h, 0)) :=
    statsHourly_mkAgg (fun _ => 0) total start ks
  refine ⟨rfl, ?_, rfl⟩
  simp only [report_hourly_lines, hst]
  refine List.map_congr_left ?_
  intro h hmem
  have hlt : h < 24 := List.mem_range.mp hmem
  interval_cases h <;> rfl

end KeyboardMonitor
